import Mathlib

/-!
Verification of the validating core of the double-entry ledger
(`src/lib.rs` of the Rust-Financial-Ledger repository).

The embedding follows the source:
- `Entry`, `Transaction`, `Engine` mirror the Rust structs.
- Rust `i64` amounts are modelled as `Int`; the accumulating sum in
  `Transaction::new` (`entries.iter().map(|e| e.amount).sum::<i64>()`) is
  modelled with an explicit 64-bit two's-complement wrap `wrap64` applied at
  every addition, which is the release-mode Rust semantics of `i64` addition.
- `serde_wasm_bindgen::from_value` is boundary plumbing; its outcome is
  modelled by passing `Option (List Entry)` to `add_transaction_val`
  (`none` for a decoding failure, `some entries` for a decoded sequence).
- `Result<T, String>` becomes `Except String T`; `format!` message templates
  become the string-building functions `unbalancedMsg` / `emptyMsg`.
-/

namespace Ledger

/-- One posting, `pub struct Entry` (src/lib.rs lines 11-14): an account
identifier and a signed 64-bit amount (positive = credit, negative = debit). -/
structure Entry where
  account_id : String
  amount : Int
deriving DecidableEq

/-- A financial transaction, `pub struct Transaction` (src/lib.rs lines 19-25):
`id : u32`, `description`, `timestamp : u64`, the entries, and an optional
category. -/
structure Transaction where
  id : Nat
  description : String
  timestamp : Nat
  entries : List Entry
  category : Option String
deriving DecidableEq

/-- Smallest value of a signed 64-bit integer. -/
def i64Min : Int := -(2 ^ 63)

/-- Largest value of a signed 64-bit integer. -/
def i64Max : Int := 2 ^ 63 - 1

/-- The integer `x` is representable as a signed 64-bit integer. -/
def isI64 (x : Int) : Prop := i64Min ≤ x ∧ x ≤ i64Max

instance (x : Int) : Decidable (isI64 x) := by
  unfold isI64
  infer_instance

/-- Two's-complement wrap-around of an integer into the signed 64-bit range
`[-2^63, 2^63)`. -/
def wrap64 (x : Int) : Int := (x + 2 ^ 63) % 2 ^ 64 - 2 ^ 63

/-- One step of the accumulating sum in `Transaction::new`: a single `i64`
addition, with release-mode wrap-around semantics. -/
def wadd (a b : Int) : Int := wrap64 (a + b)

/-- The balance computed by `Transaction::new`
(`let balance: i64 = entries.iter().map(|e| e.amount).sum();`,
src/lib.rs line 31): fold the amounts from 0 with 64-bit addition. -/
def sumBalance (entries : List Entry) : Int :=
  (entries.map Entry.amount).foldl wadd 0

/-- The exact mathematical sum of the amounts, with no wrap-around. -/
def mathSum (entries : List Entry) : Int :=
  (entries.map Entry.amount).sum

/-- The message of `format!("Transaction unbalanced: Sum is {}. Must be 0.",
balance)` (src/lib.rs line 34). -/
def unbalancedMsg (balance : Int) : String :=
  "Transaction unbalanced: Sum is " ++ toString balance ++ ". Must be 0."

/-- The message `"Transaction cannot be empty."` (src/lib.rs line 38). -/
def emptyMsg : String := "Transaction cannot be empty."

/-- `Transaction::new` (src/lib.rs lines 30-48): compute the 64-bit balance;
reject with the unbalanced message if it is non-zero, then reject with the
empty message if there are no entries, otherwise build the transaction with
`category = None`. -/
def Transaction.new (id : Nat) (description : String) (timestamp : Nat)
    (entries : List Entry) : Except String Transaction :=
  let balance : Int := sumBalance entries
  if balance ≠ 0 then
    Except.error (unbalancedMsg balance)
  else if entries.isEmpty then
    Except.error emptyMsg
  else
    Except.ok ⟨id, description, timestamp, entries, none⟩

/-- The ledger engine, `pub struct Engine` (src/lib.rs lines 52-54): an ordered
sequence of committed transactions. -/
structure Engine where
  transactions : List Transaction
deriving DecidableEq

/-- `Engine::new` (src/lib.rs lines 59-66): a fresh engine with an empty
ledger. -/
def Engine.new : Engine := ⟨[]⟩

/-- `Engine::add_transaction_val` (src/lib.rs lines 71-84). The first
component of the result is the engine after the call, the second is the
returned string. `js_entries = none` models a `serde_wasm_bindgen`
decoding failure, `some entries` a successfully decoded entry sequence. -/
def Engine.add_transaction_val (self : Engine) (id : Nat) (description : String)
    (timestamp : Nat) (js_entries : Option (List Entry)) : Engine × String :=
  match js_entries with
  | none => (self, "Error: Invalid entries format")
  | some entries =>
    match Transaction.new id description timestamp entries with
    | Except.ok tx => (⟨self.transactions ++ [tx]⟩, "Success: Transaction Committed")
    | Except.error e => (self, "Error: " ++ e)

/-- `Engine::get_transaction_count` (src/lib.rs lines 86-88). -/
def Engine.get_transaction_count (self : Engine) : Nat :=
  self.transactions.length

/-- One proposed commit: the four arguments of a single
`add_transaction_val` call. -/
structure Req where
  id : Nat
  description : String
  timestamp : Nat
  js_entries : Option (List Entry)

/-- Run a sequence of commit attempts left to right, keeping the engine state
and discarding the returned strings. -/
def Engine.runAll (self : Engine) (reqs : List Req) : Engine :=
  reqs.foldl
    (fun e r => (e.add_transaction_val r.id r.description r.timestamp r.js_entries).1)
    self

/-- Whether a single commit attempt succeeds: the entries decode and
`Transaction::new` accepts them. -/
def commitOk (r : Req) : Bool :=
  match r.js_entries with
  | none => false
  | some entries =>
    match Transaction.new r.id r.description r.timestamp entries with
    | Except.ok _ => true
    | Except.error _ => false

/-- The number of successful commit attempts in a request sequence. -/
def countSuccess (reqs : List Req) : Nat := (reqs.filter commitOk).length

/-- The running partial sums of the amounts, computed exactly
(starting value 0 included). -/
def exactPartials (entries : List Entry) : List Int :=
  (entries.map Entry.amount).scanl (· + ·) 0

/-- The running partial sums of the amounts as the 64-bit accumulator of
`Transaction::new` computes them (starting value 0 included). -/
def wrapPartials (entries : List Entry) : List Int :=
  (entries.map Entry.amount).scanl wadd 0

/-- The variant of `Transaction::new` written from the spec's wording for the
check order: it evaluates the non-empty check before the sum check, with the
same two messages (spec §4.2, "order of the checks does not affect observable
behavior"). -/
def Transaction.newEmptyFirst (id : Nat) (description : String) (timestamp : Nat)
    (entries : List Entry) : Except String Transaction :=
  if entries.isEmpty then
    Except.error emptyMsg
  else
    let balance : Int := sumBalance entries
    if balance ≠ 0 then
      Except.error (unbalancedMsg balance)
    else
      Except.ok ⟨id, description, timestamp, entries, none⟩

/- ### Arithmetic helper lemmas about the 64-bit wrap -/

theorem wrap64_add_mul (x k : Int) : wrap64 (x + 2 ^ 64 * k) = wrap64 x := by
  unfold wrap64
  have h : x + 2 ^ 64 * k + 2 ^ 63 = x + 2 ^ 63 + 2 ^ 64 * k := by ring
  rw [h, Int.add_mul_emod_self_left]

theorem wrap64_sub_self (x : Int) : ∃ q : Int, wrap64 x = x + 2 ^ 64 * q := by
  refine ⟨-((x + 2 ^ 63) / 2 ^ 64), ?_⟩
  unfold wrap64
  rw [Int.emod_def]
  ring

theorem wrap64_wadd_left (x y : Int) : wrap64 (wrap64 x + y) = wrap64 (x + y) := by
  obtain ⟨q, hq⟩ := wrap64_sub_self x
  rw [hq]
  have h : x + 2 ^ 64 * q + y = x + y + 2 ^ 64 * q := by ring
  rw [h, wrap64_add_mul]

theorem wrap64_eq_self (x : Int) (h1 : i64Min ≤ x) (h2 : x ≤ i64Max) :
    wrap64 x = x := by
  unfold wrap64
  have hlo : (0 : Int) ≤ x + 2 ^ 63 := by
    unfold i64Min at h1
    omega
  have hhi : x + 2 ^ 63 < 2 ^ 64 := by
    unfold i64Max at h2
    omega
  rw [Int.emod_eq_of_lt hlo hhi]
  ring

theorem wrap64_zero : wrap64 0 = 0 := by decide

theorem foldl_wadd_eq (l : List Int) :
    ∀ a : Int, l.foldl wadd (wrap64 a) = wrap64 (a + l.sum) := by
  induction l with
  | nil =>
    intro a
    simp [List.foldl]
  | cons b l ih =>
    intro a
    have hstep : wadd (wrap64 a) b = wrap64 (a + b) := wrap64_wadd_left a b
    calc (b :: l).foldl wadd (wrap64 a)
        = l.foldl wadd (wadd (wrap64 a) b) := rfl
      _ = l.foldl wadd (wrap64 (a + b)) := by rw [hstep]
      _ = wrap64 (a + b + l.sum) := ih (a + b)
      _ = wrap64 (a + (b :: l).sum) := by rw [List.sum_cons]; ring_nf

theorem sumBalance_eq_wrap (entries : List Entry) :
    sumBalance entries = wrap64 (mathSum entries) := by
  unfold sumBalance mathSum
  have h0 : (0 : Int) = wrap64 0 := wrap64_zero.symm
  rw [h0, foldl_wadd_eq, zero_add]

/- ### Behaviour of Transaction.new and add_transaction_val -/

theorem new_ok (id : Nat) (d : String) (ts : Nat) (entries : List Entry)
    (hne : entries ≠ []) (hbal : sumBalance entries = 0) :
    Transaction.new id d ts entries = Except.ok ⟨id, d, ts, entries, none⟩ := by
  unfold Transaction.new
  simp [hbal, List.isEmpty_iff, hne]

theorem new_err_unbalanced (id : Nat) (d : String) (ts : Nat) (entries : List Entry)
    (hbal : sumBalance entries ≠ 0) :
    Transaction.new id d ts entries = Except.error (unbalancedMsg (sumBalance entries)) := by
  unfold Transaction.new
  simp [hbal]

theorem sumBalance_nil : sumBalance [] = 0 := rfl

theorem new_err_empty (id : Nat) (d : String) (ts : Nat) :
    Transaction.new id d ts [] = Except.error emptyMsg := rfl

theorem add_ok (eng : Engine) (id : Nat) (d : String) (ts : Nat)
    (entries : List Entry) (tx : Transaction)
    (h : Transaction.new id d ts entries = Except.ok tx) :
    eng.add_transaction_val id d ts (some entries)
      = (⟨eng.transactions ++ [tx]⟩, "Success: Transaction Committed") := by
  simp only [Engine.add_transaction_val, h]

theorem add_err (eng : Engine) (id : Nat) (d : String) (ts : Nat)
    (entries : List Entry) (msg : String)
    (h : Transaction.new id d ts entries = Except.error msg) :
    eng.add_transaction_val id d ts (some entries) = (eng, "Error: " ++ msg) := by
  simp only [Engine.add_transaction_val, h]

theorem add_none (eng : Engine) (id : Nat) (d : String) (ts : Nat) :
    eng.add_transaction_val id d ts none = (eng, "Error: Invalid entries format") := rfl

theorem add_step_cases (eng : Engine) (id : Nat) (d : String) (ts : Nat)
    (js : Option (List Entry)) :
    (eng.add_transaction_val id d ts js).1 = eng ∨
    ∃ tx : Transaction,
      (eng.add_transaction_val id d ts js).1.transactions = eng.transactions ++ [tx] := by
  match js with
  | none => exact Or.inl rfl
  | some entries =>
    match h : Transaction.new id d ts entries with
    | Except.ok tx =>
      refine Or.inr ⟨tx, ?_⟩
      simp only [Engine.add_transaction_val, h]
    | Except.error e =>
      refine Or.inl ?_
      simp only [Engine.add_transaction_val, h]

theorem add_count_step (eng : Engine) (r : Req) :
    ((eng.add_transaction_val r.id r.description r.timestamp r.js_entries).1).transactions.length
      = eng.transactions.length + (if commitOk r then 1 else 0) := by
  match hjs : r.js_entries with
  | none => simp [Engine.add_transaction_val, commitOk, hjs]
  | some entries =>
    match h : Transaction.new r.id r.description r.timestamp entries with
    | Except.ok tx => simp [Engine.add_transaction_val, commitOk, hjs, h]
    | Except.error e => simp [Engine.add_transaction_val, commitOk, hjs, h]

theorem runAll_count (reqs : List Req) :
    ∀ eng : Engine,
      (eng.runAll reqs).transactions.length
        = eng.transactions.length + countSuccess reqs := by
  induction reqs with
  | nil =>
    intro eng
    simp [Engine.runAll, countSuccess]
  | cons r reqs ih =>
    intro eng
    have hstep := add_count_step eng r
    unfold Engine.runAll at ih ⊢
    rw [List.foldl_cons, ih, hstep]
    unfold countSuccess
    by_cases hc : commitOk r
    · simp [hc, List.filter_cons]
      omega
    · simp [hc, List.filter_cons]

theorem countSuccess_append (rs₁ rs₂ : List Req) :
    countSuccess (rs₁ ++ rs₂) = countSuccess rs₁ + countSuccess rs₂ := by
  unfold countSuccess
  rw [List.filter_append, List.length_append]

/- ### String facts about the returned messages -/

theorem err_prefix (msg : String) :
    ("Error: ").data <+: ("Error: " ++ msg).data := by
  rw [String.data_append]
  exact List.prefix_append _ _

theorem success_no_err_prefix :
    ¬ ("Error: ").data <+: ("Success: Transaction Committed").data := by
  decide

theorem err_unbalanced_literal (s : Int) :
    "Error: " ++ unbalancedMsg s
      = "Error: Transaction unbalanced: Sum is " ++ toString s ++ ". Must be 0." := by
  unfold unbalancedMsg
  rw [← String.append_assoc, ← String.append_assoc]
  rfl

theorem unbalancedMsg_ne_emptyMsg (s : Int) : unbalancedMsg s ≠ emptyMsg := by
  intro h
  have hl := congrArg String.length h
  simp only [unbalancedMsg, emptyMsg, String.length_append] at hl
  have h1 : ("Transaction unbalanced: Sum is ").length = 31 := rfl
  have h2 : (". Must be 0.").length = 12 := rfl
  have h3 : ("Transaction cannot be empty.").length = 28 := rfl
  rw [h1, h2, h3] at hl
  omega

/- ### Exactness of the 64-bit accumulator on in-range partial sums -/

theorem start_mem_scanl (f : Int → Int → Int) (b : Int) (l : List Int) :
    b ∈ l.scanl f b := by
  cases l <;> simp [List.scanl]

theorem scanl_wadd_eq (l : List Int) :
    ∀ a : Int, (∀ x ∈ l.scanl (· + ·) a, isI64 x) →
      l.scanl wadd a = l.scanl (· + ·) a ∧ l.foldl wadd a = a + l.sum := by
  induction l with
  | nil =>
    intro a h
    exact ⟨rfl, by simp⟩
  | cons b l ih =>
    intro a h
    have hmem : a + b ∈ (b :: l).scanl (· + ·) a := by
      rw [List.scanl_cons]
      exact List.mem_cons_of_mem _ (start_mem_scanl _ _ _)
    have hab : wadd a b = a + b := by
      unfold wadd
      exact wrap64_eq_self _ (h _ hmem).1 (h _ hmem).2
    have h' : ∀ x ∈ l.scanl (· + ·) (a + b), isI64 x := by
      intro x hx
      refine h x ?_
      rw [List.scanl_cons]
      exact List.mem_cons_of_mem _ hx
    obtain ⟨hs, hf⟩ := ih (a + b) h'
    constructor
    · rw [List.scanl_cons, List.scanl_cons, hab, hs]
    · calc (b :: l).foldl wadd a
          = l.foldl wadd (wadd a b) := rfl
        _ = l.foldl wadd (a + b) := by rw [hab]
        _ = (a + b) + l.sum := hf
        _ = a + (b :: l).sum := by rw [List.sum_cons]; ring

/- ### Equivalence of the two check orders -/

theorem new_eq_newEmptyFirst (id : Nat) (d : String) (ts : Nat)
    (entries : List Entry) :
    Transaction.new id d ts entries = Transaction.newEmptyFirst id d ts entries := by
  match entries with
  | [] => rfl
  | e :: rest =>
    unfold Transaction.new Transaction.newEmptyFirst
    by_cases hb : sumBalance (e :: rest) = 0
    · simp [hb]
    · simp [hb]

/- ### Shared commit lemma for the success cases -/

theorem commit_appends (id : Nat) (d : String) (ts : Nat) (entries : List Entry)
    (eng : Engine) (hne : entries ≠ []) (hsum : mathSum entries = 0) :
    Transaction.new id d ts entries = Except.ok ⟨id, d, ts, entries, none⟩ ∧
    (eng.add_transaction_val id d ts (some entries)).1.transactions
      = eng.transactions ++ [⟨id, d, ts, entries, none⟩] ∧
    (eng.add_transaction_val id d ts (some entries)).1.get_transaction_count
      = eng.get_transaction_count + 1 := by
  have hbal : sumBalance entries = 0 := by
    rw [sumBalance_eq_wrap, hsum, wrap64_zero]
  have hnew := new_ok id d ts entries hne hbal
  have hadd := add_ok eng id d ts entries _ hnew
  refine ⟨hnew, ?_, ?_⟩
  · rw [hadd]
  · rw [hadd]
    simp [Engine.get_transaction_count]

/- ### The claims -/

/-- C1: for every non-empty sequence of entries whose amounts sum to exactly 0,
`Transaction::new` succeeds, producing a transaction whose id, description,
timestamp and entries equal the inputs and whose category is `none`, and
`add_transaction_val` appends exactly that one transaction to the ledger. -/
theorem balanced_nonempty_create_and_commit (id : Nat) (d : String) (ts : Nat)
    (entries : List Entry) (eng : Engine)
    (hne : entries ≠ []) (hsum : mathSum entries = 0) :
    Transaction.new id d ts entries = Except.ok ⟨id, d, ts, entries, none⟩ ∧
    (eng.add_transaction_val id d ts (some entries)).1.transactions
      = eng.transactions ++ [⟨id, d, ts, entries, none⟩] ∧
    (eng.add_transaction_val id d ts (some entries)).1.get_transaction_count
      = eng.get_transaction_count + 1 :=
  commit_appends id d ts entries eng hne hsum

/-- Witness for C1 at the spec's Scenario 1 input. -/
theorem balanced_nonempty_create_and_commit_witness :
    ([⟨"Cash", 100⟩, ⟨"Revenue", -100⟩] : List Entry) ≠ [] ∧
    mathSum [⟨"Cash", 100⟩, ⟨"Revenue", -100⟩] = 0 ∧
    (Engine.new.add_transaction_val 1 "Sale" 1000
        (some [⟨"Cash", 100⟩, ⟨"Revenue", -100⟩])).1.get_transaction_count
      = Engine.new.get_transaction_count + 1 :=
  ⟨by decide, by decide,
    (balanced_nonempty_create_and_commit 1 "Sale" 1000
      [⟨"Cash", 100⟩, ⟨"Revenue", -100⟩] Engine.new (by decide) (by decide)).2.2⟩

/-- C2 counterexample: the claim quantifies over the mathematical sum of the
amounts, but the code sums with 64-bit wrap-around. Two entries of `-2^63`
(each a valid `i64`) sum to `-2^64 ≠ 0`, yet the computed balance wraps to 0,
so `Transaction::new` succeeds and the commit is accepted instead of failing
with the unbalanced error. -/
theorem unbalanced_claim_counterexample :
    mathSum [⟨"a", -(2 ^ 63)⟩, ⟨"b", -(2 ^ 63)⟩] ≠ 0 ∧
    isI64 (-(2 ^ 63)) ∧
    Transaction.new 2 "wrap" 0 [⟨"a", -(2 ^ 63)⟩, ⟨"b", -(2 ^ 63)⟩]
      = Except.ok ⟨2, "wrap", 0, [⟨"a", -(2 ^ 63)⟩, ⟨"b", -(2 ^ 63)⟩], none⟩ ∧
    (Engine.new.add_transaction_val 2 "wrap" 0
        (some [⟨"a", -(2 ^ 63)⟩, ⟨"b", -(2 ^ 63)⟩])).2
      = "Success: Transaction Committed" :=
  ⟨by decide, by decide, rfl, by decide⟩

/-- C2 (amended): for every sequence of entries whose amounts sum to a value
`s` with `s ≠ 0` that is representable as a signed 64-bit integer,
`Transaction::new` and the commit fail with the unbalanced error carrying
exactly `s`, and the ledger is unchanged. -/
theorem unbalanced_inrange_rejected (id : Nat) (d : String) (ts : Nat)
    (entries : List Entry) (eng : Engine) (s : Int)
    (hsum : mathSum entries = s) (hs : s ≠ 0)
    (h1 : i64Min ≤ s) (h2 : s ≤ i64Max) :
    Transaction.new id d ts entries = Except.error (unbalancedMsg s) ∧
    (eng.add_transaction_val id d ts (some entries)).1 = eng ∧
    (eng.add_transaction_val id d ts (some entries)).2 = "Error: " ++ unbalancedMsg s ∧
    (eng.add_transaction_val id d ts (some entries)).1.get_transaction_count
      = eng.get_transaction_count := by
  have hbal : sumBalance entries = s := by
    rw [sumBalance_eq_wrap, hsum, wrap64_eq_self s h1 h2]
  have hnew : Transaction.new id d ts entries = Except.error (unbalancedMsg s) := by
    rw [new_err_unbalanced id d ts entries (by rw [hbal]; exact hs), hbal]
  have hadd := add_err eng id d ts entries _ hnew
  refine ⟨hnew, ?_, ?_, ?_⟩
  · rw [hadd]
  · rw [hadd]
  · rw [hadd]

/-- Witness for C2's amended theorem at the spec's Scenario 2 input. -/
theorem unbalanced_inrange_rejected_witness :
    mathSum [⟨"Cash", 100⟩, ⟨"Revenue", -50⟩] = 50 ∧
    (Engine.new.add_transaction_val 2 "Bad Math" 1001
        (some [⟨"Cash", 100⟩, ⟨"Revenue", -50⟩])).2 = "Error: " ++ unbalancedMsg 50 :=
  ⟨by decide,
    (unbalanced_inrange_rejected 2 "Bad Math" 1001 [⟨"Cash", 100⟩, ⟨"Revenue", -50⟩]
      Engine.new 50 (by decide) (by decide) (by decide) (by decide)).2.2.1⟩

/-- C3: for the empty entry sequence and every id, description, timestamp and
engine, `Transaction::new` and the commit fail with the empty-transaction
error — not the unbalanced one, although the empty balance is 0 — and the
ledger is unchanged. -/
theorem empty_rejected (id : Nat) (d : String) (ts : Nat) (eng : Engine) :
    Transaction.new id d ts [] = Except.error emptyMsg ∧
    sumBalance [] = 0 ∧
    (∀ s : Int, emptyMsg ≠ unbalancedMsg s) ∧
    (eng.add_transaction_val id d ts (some [])).1 = eng ∧
    (eng.add_transaction_val id d ts (some [])).2 = "Error: Transaction cannot be empty." ∧
    (eng.add_transaction_val id d ts (some [])).1.get_transaction_count
      = eng.get_transaction_count := by
  have hadd := add_err eng id d ts [] emptyMsg (new_err_empty id d ts)
  refine ⟨new_err_empty id d ts, rfl, ?_, ?_, ?_, ?_⟩
  · exact fun s => (unbalancedMsg_ne_emptyMsg s).symm
  · rw [hadd]
  · rw [hadd]
    rfl
  · rw [hadd]

/-- C4: starting from a fresh engine, after any interleaving of successful and
failed commit attempts `get_transaction_count` equals exactly the number of
successful commits, and the count is monotonically non-decreasing as further
operations are run. -/
theorem count_eq_successful_commits (reqs rs₁ rs₂ : List Req) :
    (Engine.new.runAll reqs).get_transaction_count = countSuccess reqs ∧
    (Engine.new.runAll rs₁).get_transaction_count
      ≤ (Engine.new.runAll (rs₁ ++ rs₂)).get_transaction_count := by
  constructor
  · have h := runAll_count reqs Engine.new
    simpa [Engine.get_transaction_count, Engine.new] using h
  · have h1 := runAll_count rs₁ Engine.new
    have h2 := runAll_count (rs₁ ++ rs₂) Engine.new
    unfold Engine.get_transaction_count
    rw [h1, h2, countSuccess_append]
    omega

/-- C5: commit is atomic on error. Whenever `add_transaction_val` returns
anything other than the success string — a malformed-entries decoding failure,
the empty error or the unbalanced error — the engine is exactly the one from
before the call (and hence, the model being a pure function of the state,
remains usable for subsequent commits). -/
theorem commit_atomic_on_error (eng : Engine) (id : Nat) (d : String) (ts : Nat)
    (js : Option (List Entry))
    (h : (eng.add_transaction_val id d ts js).2 ≠ "Success: Transaction Committed") :
    (eng.add_transaction_val id d ts js).1 = eng := by
  match js with
  | none => rfl
  | some entries =>
    match hn : Transaction.new id d ts entries with
    | Except.ok tx =>
      exfalso
      exact h (by simp only [Engine.add_transaction_val, hn])
    | Except.error e =>
      simp only [Engine.add_transaction_val, hn]

/-- Witness for C5 at a malformed-input commit attempt. -/
theorem commit_atomic_on_error_witness :
    (Engine.new.add_transaction_val 7 "bad" 3 none).2 ≠ "Success: Transaction Committed" ∧
    (Engine.new.add_transaction_val 7 "bad" 3 none).1 = Engine.new :=
  ⟨by decide, commit_atomic_on_error Engine.new 7 "bad" 3 none (by decide)⟩

/-- C6: the ledger is append-only. Every commit attempt either leaves the
transactions sequence unchanged or extends it by exactly one transaction at
the end, and the previous sequence — every transaction in it, with all its
fields — persists unchanged as a prefix of the new one. -/
theorem ledger_append_only (eng : Engine) (id : Nat) (d : String) (ts : Nat)
    (js : Option (List Entry)) :
    ((eng.add_transaction_val id d ts js).1 = eng ∨
      ∃ tx : Transaction,
        (eng.add_transaction_val id d ts js).1.transactions
          = eng.transactions ++ [tx]) ∧
    eng.transactions <+: (eng.add_transaction_val id d ts js).1.transactions := by
  refine ⟨add_step_cases eng id d ts js, ?_⟩
  rcases add_step_cases eng id d ts js with hsame | ⟨tx, happ⟩
  · rw [hsame]
  · rw [happ]
    exact List.prefix_append _ _

/-- C7: the exact string contract of `add_transaction_val` — the literal
success string, the literal unbalanced message carrying the computed sum, the
literal empty message, the literal invalid-format message — and every error
string is distinguishable from the success string by the prefix "Error: ". -/
theorem commit_string_contract (eng : Engine) (id : Nat) (d : String) (ts : Nat)
    (entries : List Entry) :
    (eng.add_transaction_val id d ts none).2 = "Error: Invalid entries format" ∧
    (eng.add_transaction_val id d ts (some [])).2 = "Error: Transaction cannot be empty." ∧
    (sumBalance entries ≠ 0 →
      (eng.add_transaction_val id d ts (some entries)).2
        = "Error: Transaction unbalanced: Sum is " ++ toString (sumBalance entries)
            ++ ". Must be 0.") ∧
    (entries ≠ [] → sumBalance entries = 0 →
      (eng.add_transaction_val id d ts (some entries)).2
        = "Success: Transaction Committed") ∧
    ("Error: ").data <+: ("Error: Invalid entries format").data ∧
    ("Error: ").data <+: ("Error: Transaction cannot be empty.").data ∧
    (∀ s : Int, ("Error: ").data <+:
      ("Error: Transaction unbalanced: Sum is " ++ toString s ++ ". Must be 0.").data) ∧
    ¬ ("Error: ").data <+: ("Success: Transaction Committed").data := by
  refine ⟨rfl, ?_, ?_, ?_, by decide, by decide, ?_, success_no_err_prefix⟩
  · rw [add_err eng id d ts [] emptyMsg (new_err_empty id d ts)]
    rfl
  · intro hb
    rw [add_err eng id d ts entries _ (new_err_unbalanced id d ts entries hb)]
    exact err_unbalanced_literal (sumBalance entries)
  · intro hne hb
    rw [add_ok eng id d ts entries _ (new_ok id d ts entries hne hb)]
  · intro s
    exact (err_unbalanced_literal s) ▸ err_prefix (unbalancedMsg s)

/-- Witness for C7 at the spec's Scenario 2 input. -/
theorem commit_string_contract_witness :
    sumBalance [⟨"Cash", 100⟩, ⟨"Revenue", -50⟩] ≠ 0 ∧
    (Engine.new.add_transaction_val 2 "Bad Math" 1001
        (some [⟨"Cash", 100⟩, ⟨"Revenue", -50⟩])).2
      = "Error: Transaction unbalanced: Sum is "
          ++ toString (sumBalance [⟨"Cash", 100⟩, ⟨"Revenue", -50⟩]) ++ ". Must be 0." :=
  ⟨by decide,
    (commit_string_contract Engine.new 2 "Bad Math" 1001
      [⟨"Cash", 100⟩, ⟨"Revenue", -50⟩]).2.2.1 (by decide)⟩

/-- C8: the 64-bit accumulator is exact on in-range data — for every entry
sequence all of whose exact running partial sums (the final sum included) are
representable as signed 64-bit integers, the computed balance equals the
mathematical sum of the amounts and no accumulator step wraps around. -/
theorem sum_exact_when_inrange (entries : List Entry)
    (h : ∀ x ∈ exactPartials entries, isI64 x) :
    sumBalance entries = mathSum entries ∧
    wrapPartials entries = exactPartials entries := by
  obtain ⟨hs, hf⟩ := scanl_wadd_eq (entries.map Entry.amount) 0 h
  constructor
  · unfold sumBalance mathSum
    rw [hf, zero_add]
  · exact hs

/-- Witness for C8 at the spec's Scenario 1 input. -/
theorem sum_exact_when_inrange_witness :
    (∀ x ∈ exactPartials [⟨"Cash", 100⟩, ⟨"Revenue", -100⟩], isI64 x) ∧
    sumBalance [⟨"Cash", 100⟩, ⟨"Revenue", -100⟩]
      = mathSum [⟨"Cash", 100⟩, ⟨"Revenue", -100⟩] :=
  ⟨by decide,
    (sum_exact_when_inrange [⟨"Cash", 100⟩, ⟨"Revenue", -100⟩] (by decide)).1⟩

/-- C9: the order of the two validation checks does not affect observable
behaviour — `Transaction::new` (sum check first, as in the code) returns the
same result as the variant that evaluates the non-empty check first — and the
two error kinds carry distinct messages. -/
theorem check_order_irrelevant (id : Nat) (d : String) (ts : Nat)
    (entries : List Entry) :
    Transaction.new id d ts entries = Transaction.newEmptyFirst id d ts entries ∧
    ∀ s : Int, unbalancedMsg s ≠ emptyMsg :=
  ⟨new_eq_newEmptyFirst id d ts entries, unbalancedMsg_ne_emptyMsg⟩

/-- Witness for C9 at the empty input, where the two check orders could have
differed. -/
theorem check_order_irrelevant_witness :
    Transaction.new 3 "x" 5 [] = Transaction.newEmptyFirst 3 "x" 5 [] ∧
    unbalancedMsg 50 ≠ emptyMsg :=
  ⟨(check_order_irrelevant 3 "x" 5 []).1, (check_order_irrelevant 3 "x" 5 []).2 50⟩

/-- C10: zero-amount entries are accepted — every non-empty sequence in which
each amount is 0, the singleton included, is created by `Transaction::new` and
appended by the commit. -/
theorem zero_amount_entries_accepted (id : Nat) (d : String) (ts : Nat)
    (entries : List Entry) (eng : Engine)
    (hne : entries ≠ []) (hz : ∀ e ∈ entries, e.amount = 0) :
    Transaction.new id d ts entries = Except.ok ⟨id, d, ts, entries, none⟩ ∧
    (eng.add_transaction_val id d ts (some entries)).1.transactions
      = eng.transactions ++ [⟨id, d, ts, entries, none⟩] ∧
    (eng.add_transaction_val id d ts (some entries)).1.get_transaction_count
      = eng.get_transaction_count + 1 := by
  have hsum : mathSum entries = 0 := by
    unfold mathSum
    apply List.sum_eq_zero
    intro x hx
    obtain ⟨e, he, hxe⟩ := List.mem_map.mp hx
    rw [← hxe]
    exact hz e he
  exact commit_appends id d ts entries eng hne hsum

/-- Witness for C10 at the singleton zero-amount entry. -/
theorem zero_amount_entries_accepted_witness :
    ([⟨"acct", 0⟩] : List Entry) ≠ [] ∧
    (∀ e ∈ ([⟨"acct", 0⟩] : List Entry), e.amount = 0) ∧
    (Engine.new.add_transaction_val 9 "zero" 1 (some [⟨"acct", 0⟩])).1.get_transaction_count
      = Engine.new.get_transaction_count + 1 :=
  ⟨by decide, by decide,
    (zero_amount_entries_accepted 9 "zero" 1 [⟨"acct", 0⟩] Engine.new
      (by decide) (by decide)).2.2⟩

end Ledger
